import Mathlib

/-!
Verification of the income-distribution estimators of the
`income-canada` repository (two Python scripts:
`fetch_statscan_income.py` and `statscan_income_analyzer.py`).

The estimators are pure functions over an in-memory list of income
brackets; we embed them shallowly.  Python floats are idealised as `ℚ`,
Python `None`-returning parsers become `Option`-valued functions, and the
run-time errors the code can raise (`ZeroDivisionError` in
`calculate_bottom_25_threshold_from_distribution`, `IndexError` in
`calculate_top_75_threshold`) are modelled with `Except Unit`.
-/

/-- A distribution entry, mirroring the dicts
`{'range': ..., 'percentage': ...}` that the estimators read (the sample
data also carries an `'absolute'` key, which no estimator accesses, so it
is omitted). -/
structure IncomeBracket where
  range : String
  percentage : ℚ
deriving Repr, DecidableEq

/-- Sum of the percentage shares of a distribution. -/
def sumShares (d : List IncomeBracket) : ℚ :=
  (d.map IncomeBracket.percentage).sum

/-! ### String machinery shared by the range parsers

Python: `clean_str = range_str.replace('$', '').replace(',', '')`,
`re.findall(r'\d+', clean_str)`, substring tests with `in`,
`clean_str.strip().endswith('+')`. -/

/-- Removal of dollar signs and commas, as in
`range_str.replace('$', '').replace(',', '')`. -/
def clean (s : String) : List Char :=
  s.toList.filter (fun ch => ch != '$' && ch != ',')

/-- Numeric value of an ASCII digit. -/
def digitVal (c : Char) : Nat := c.toNat - 48

/-- Accumulating scanner behind `findNumbers`: the second argument holds
the digit run currently being read, if any. -/
def findNumbersAux : List Char → Option Nat → List Nat
  | [], none => []
  | [], some n => [n]
  | c :: cs, acc =>
    if c.isDigit then
      findNumbersAux cs (some ((acc.getD 0) * 10 + digitVal c))
    else
      match acc with
      | none => findNumbersAux cs none
      | some n => n :: findNumbersAux cs none

/-- All maximal digit runs of a character list, in order of appearance,
read as numbers: the model of `re.findall(r'\d+', clean_str)` (every
caller consumes each match through `int(...)` / `float(...)`). -/
def findNumbers (s : List Char) : List Nat := findNumbersAux s none

/-- Substring containment, the model of Python's `needle in haystack`. -/
def isInfixList (needle : List Char) : List Char → Bool
  | [] => needle.isEmpty
  | c :: rest => needle.isPrefixOf (c :: rest) || isInfixList needle rest

/-- Lower-cased copy of a character list, as in `clean_str.lower()`. -/
def lowered (l : List Char) : List Char := l.map Char.toLower

/-- Whitespace stripping from both ends, as in `str.strip()`. -/
def stripWS (l : List Char) : List Char :=
  ((l.dropWhile Char.isWhitespace).reverse.dropWhile Char.isWhitespace).reverse

/-- Test for `clean_str.strip().endswith('+')`. -/
def endsWithPlus (l : List Char) : Bool :=
  (stripWS l).getLast? == some '+'

/-- Test for `'under' in clean_str.lower()`. -/
def hasUnder (c : List Char) : Bool :=
  isInfixList ("under").toList (lowered c)

/-- Test for
`'over' in clean_str.lower() or 'and over' in clean_str.lower() or clean_str.strip().endswith('+')`. -/
def hasOver (c : List Char) : Bool :=
  isInfixList ("over").toList (lowered c)
    || isInfixList ("and over").toList (lowered c)
    || endsWithPlus c

/-! ### Range parsers of `fetch_statscan_income.py` -/

/-- Model of `extract_minimum_of_range` (fetch_statscan_income.py, lines 250-276). -/
def extract_minimum_of_range (s : String) : Option ℚ :=
  let c := clean s
  if hasUnder c then
    match findNumbers c with
    | _ :: _ => some 0
    | [] => none
  else if hasOver c then
    match findNumbers c with
    | n :: _ => some (n : ℚ)
    | [] => none
  else
    match findNumbers c with
    | n :: _ => some (n : ℚ)
    | [] => none

/-- Model of `extract_maximum_of_range` (fetch_statscan_income.py, lines 279-309). -/
def extract_maximum_of_range (s : String) : Option ℚ :=
  let c := clean s
  if hasUnder c then
    match findNumbers c with
    | n :: _ => some (n : ℚ)
    | [] => none
  else if hasOver c then
    match findNumbers c with
    | n :: _ => some ((n : ℚ) * 2)
    | [] => none
  else
    match findNumbers c with
    | _ :: b :: _ => some (b : ℚ)
    | [a] => some (a : ℚ)
    | [] => none

/-! ### Python `round` (banker's rounding, round half to even) -/

/-- Python's built-in `round` on an exact rational: nearest integer,
ties to even. -/
def pyRound (q : ℚ) : ℤ :=
  if q - (⌊q⌋ : ℚ) < 1/2 then ⌊q⌋
  else if 1/2 < q - (⌊q⌋ : ℚ) then ⌊q⌋ + 1
  else if ⌊q⌋ % 2 = 0 then ⌊q⌋ else ⌊q⌋ + 1

/-! ### Percentile estimators of `fetch_statscan_income.py` -/

/-- Scan of `calculate_75th_percentile_threshold_from_distribution`:
accumulate the share, and on the first bracket where the running total
reaches 75 return the bracket's parsed minimum (or 0 when it does not
parse); `none` when the scan exhausts the list. -/
def percentile75Loop (cum : ℚ) : List IncomeBracket → Option ℚ
  | [] => none
  | b :: rest =>
    if 75 ≤ cum + b.percentage then
      some ((extract_minimum_of_range b.range).getD 0)
    else
      percentile75Loop (cum + b.percentage) rest

/-- Model of `calculate_75th_percentile_threshold_from_distribution`
(fetch_statscan_income.py, lines 182-208). -/
def calculate_75th_percentile_threshold_from_distribution
    (d : List IncomeBracket) : ℚ :=
  match percentile75Loop 0 d with
  | some v => v
  | none =>
    match d.getLast? with
    | some b => (extract_maximum_of_range b.range).getD 0
    | none => 0

/-- Body executed by `calculate_bottom_25_threshold_from_distribution`
once the crossing bracket is found, with the target generalised from the
hard-coded 25: `bracket_share = (t - cum) / percentage` (a
`ZeroDivisionError` when the share is zero, modelled as `.error ()`),
then linear interpolation when both bounds parse, else the parsed
minimum, else 0. -/
def crossValue (t cum : ℚ) (b : IncomeBracket) : Except Unit ℚ :=
  if b.percentage = 0 then .error ()
  else
    match extract_minimum_of_range b.range, extract_maximum_of_range b.range with
    | some mn, some mx =>
        .ok ((pyRound (mn + (mx - mn) * ((t - cum) / b.percentage)) : ℤ) : ℚ)
    | some mn, none => .ok mn
    | none, _ => .ok 0

/-- Scan of `calculate_bottom_25_threshold_from_distribution`, target
generalised: the first bracket with `cum + percentage ≥ t` is
interpolated via `crossValue`; `.ok none` when the scan exhausts the
list. -/
def bottom25Loop (t cum : ℚ) : List IncomeBracket → Except Unit (Option ℚ)
  | [] => .ok none
  | b :: rest =>
    if t ≤ cum + b.percentage then (crossValue t cum b).map some
    else bottom25Loop t (cum + b.percentage) rest

/-- Interpolated-mode threshold for an arbitrary target percentile: the
body of `calculate_bottom_25_threshold_from_distribution`
(fetch_statscan_income.py, lines 211-247) with the constant 25
generalised to `t`; the post-loop fallback returns the parsed maximum of
the last bracket (or 0). -/
def thresholdForPercentileInterp (t : ℚ) (d : List IncomeBracket) :
    Except Unit ℚ :=
  match bottom25Loop t 0 d with
  | .error e => .error e
  | .ok (some v) => .ok v
  | .ok none =>
    match d.getLast? with
    | some b => .ok ((extract_maximum_of_range b.range).getD 0)
    | none => .ok 0

/-- Model of `calculate_bottom_25_threshold_from_distribution`
(fetch_statscan_income.py, lines 211-247). -/
def calculate_bottom_25_threshold_from_distribution
    (d : List IncomeBracket) : Except Unit ℚ :=
  thresholdForPercentileInterp 25 d

/-! ### Estimators of `statscan_income_analyzer.py` -/

/-- Model of `extract_midpoint_of_range` (statscan_income_analyzer.py,
lines 143-171): exactly two numeric tokens give their mean; exactly one
token `v` gives `v / 2` when the label contains `<`, `v * 1.5` when it
contains `>` or `+`, and `v` otherwise; any other token count fails. -/
def extract_midpoint_of_range (s : String) : Option ℚ :=
  let c := clean s
  match findNumbers c with
  | [lo, hi] => some (((lo : ℚ) + (hi : ℚ)) / 2)
  | [v] =>
    if c.contains '<' then some ((v : ℚ) / 2)
    else if c.contains '>' || c.contains '+' then some ((v : ℚ) * (3/2))
    else some (v : ℚ)
  | _ => none

/-- Accumulator loop of `estimate_average_from_distribution`: Python's
`if mid_point:` is a truthiness test, so a bracket is counted only when
its midpoint parses AND is nonzero. -/
def estimateLoop : List IncomeBracket → ℚ → ℚ → ℚ × ℚ
  | [], w, t => (w, t)
  | b :: rest, w, t =>
    match extract_midpoint_of_range b.range with
    | some m =>
      if m ≠ 0 then estimateLoop rest (w + m * b.percentage) (t + b.percentage)
      else estimateLoop rest w t
    | none => estimateLoop rest w t

/-- Model of `estimate_average_from_distribution` (statscan_income_analyzer.py,
lines 119-140). -/
def estimate_average_from_distribution (d : List IncomeBracket) : ℚ :=
  let p := estimateLoop d 0 0
  if 0 < p.2 then p.1 / p.2 else 0

/-- Scan of `calculate_top_75_threshold`: accumulate the share; on the
first bracket where the running total reaches 25, return the first
numeric token of the label — with an `IndexError` (`.error ()`) when the
label contains `<` but has no token, and a silent fall-through to the
next bracket when it has no token and no `<`. -/
def top75Loop (cum : ℚ) : List IncomeBracket → Except Unit (Option ℚ)
  | [] => .ok none
  | b :: rest =>
    let c := clean b.range
    if 25 ≤ cum + b.percentage then
      if c.contains '<' then
        match findNumbers c with
        | n :: _ => .ok (some (n : ℚ))
        | [] => .error ()
      else
        match findNumbers c with
        | n :: _ => .ok (some (n : ℚ))
        | [] => top75Loop (cum + b.percentage) rest
    else top75Loop (cum + b.percentage) rest

/-- Model of `calculate_top_75_threshold` (statscan_income_analyzer.py,
lines 174-210): post-loop fallback returns the first numeric token of
the last bracket's label (or 0). -/
def calculate_top_75_threshold (d : List IncomeBracket) : Except Unit ℚ :=
  match top75Loop 0 d with
  | .error e => .error e
  | .ok (some v) => .ok v
  | .ok none =>
    match d.getLast? with
    | some b =>
      match findNumbers (clean b.range) with
      | n :: _ => .ok (n : ℚ)
      | [] => .ok 0
    | none => .ok 0

/-! ### The sample distribution embedded in `fetch_statscan_income.py`
(`get_sample_toronto_income_data`, lines 96-110; the unused `'absolute'`
counts are dropped). -/

/-- The `income_distribution` list of `get_sample_toronto_income_data`. -/
def sampleDistribution : List IncomeBracket :=
  [ ⟨"Under $10,000", 5.4⟩
  , ⟨"$10,000 to $19,999", 7.1⟩
  , ⟨"$20,000 to $29,999", 8.3⟩
  , ⟨"$30,000 to $39,999", 8.9⟩
  , ⟨"$40,000 to $49,999", 9.2⟩
  , ⟨"$50,000 to $59,999", 9.0⟩
  , ⟨"$60,000 to $69,999", 8.4⟩
  , ⟨"$70,000 to $79,999", 7.6⟩
  , ⟨"$80,000 to $89,999", 6.6⟩
  , ⟨"$90,000 to $99,999", 5.7⟩
  , ⟨"$100,000 to $149,999", 13.6⟩
  , ⟨"$150,000 to $199,999", 7.3⟩
  , ⟨"$200,000 and over", 2.9⟩ ]

/-! ### Derived predicates over distributions, used to state the
claims -/

/-- The scan starting with running total `cum` does not reach target `t`
inside the list: every bracket fails its `cum + percentage >= t` check. -/
def NoCross (t : ℚ) : ℚ → List IncomeBracket → Prop
  | _, [] => True
  | cum, b :: rest => cum + b.percentage < t ∧ NoCross t (cum + b.percentage) rest

/-- Parsed lower bound of a bracket (0 when parsing fails). -/
def mnv (b : IncomeBracket) : ℚ := (extract_minimum_of_range b.range).getD 0

/-- Parsed upper bound of a bracket (0 when parsing fails). -/
def mxv (b : IncomeBracket) : ℚ := (extract_maximum_of_range b.range).getD 0

/-- Both bounds of the bracket parse and are ordered. -/
def GoodBracket (b : IncomeBracket) : Prop :=
  (extract_minimum_of_range b.range).isSome ∧
    (extract_maximum_of_range b.range).isSome ∧ mnv b ≤ mxv b

/-- The brackets are sorted ascending by income: every bracket's upper
bound is at most every later bracket's lower bound. -/
def AscendingBrackets (d : List IncomeBracket) : Prop :=
  d.Pairwise fun a b => mxv a ≤ mnv b

/-- The (midpoint, share) pairs that `estimate_average_from_distribution`
actually counts: brackets whose midpoint parses to a nonzero value
(Python's `if mid_point:` truthiness test). -/
def countedPairs (d : List IncomeBracket) : List (ℚ × ℚ) :=
  d.filterMap fun b =>
    match extract_midpoint_of_range b.range with
    | some m => if m ≠ 0 then some (m, b.percentage) else none
    | none => none

/-- The weighted mean written as the spec writes it: a quotient of sums
over the counted brackets, 0 when the counted share is not positive. -/
def averageSpec (d : List IncomeBracket) : ℚ :=
  let pairs := countedPairs d
  let tot := (pairs.map Prod.snd).sum
  if 0 < tot then ((pairs.map fun p => p.1 * p.2).sum) / tot else 0

/-! ### Facts about `pyRound` -/

theorem pyRound_intCast (n : ℤ) : pyRound (n : ℚ) = n := by
  norm_num [pyRound]

theorem pyRound_mono {a b : ℚ} (h : a ≤ b) : pyRound a ≤ pyRound b := by
  have hf : ⌊a⌋ ≤ ⌊b⌋ := Int.floor_mono h
  rcases lt_or_eq_of_le hf with hlt | heq
  · have h1 : pyRound a ≤ ⌊a⌋ + 1 := by
      unfold pyRound; split_ifs <;> omega
    have h2 : ⌊b⌋ ≤ pyRound b := by
      unfold pyRound; split_ifs <;> omega
    omega
  · unfold pyRound
    rw [← heq]
    split_ifs <;> first | rfl | omega | linarith

theorem pyRound_eq_low (q : ℚ) (f : ℤ) (h1 : (f : ℚ) ≤ q)
    (h2 : q < (f : ℚ) + 1/2) : pyRound q = f := by
  have hf : ⌊q⌋ = f := Int.floor_eq_iff.mpr ⟨h1, by linarith⟩
  unfold pyRound
  rw [hf, if_pos (by linarith)]

theorem pyRound_eq_high (q : ℚ) (f : ℤ) (h1 : (f : ℚ) + 1/2 < q)
    (h2 : q < (f : ℚ) + 1) : pyRound q = f + 1 := by
  have hf : ⌊q⌋ = f := Int.floor_eq_iff.mpr ⟨by linarith, h2⟩
  unfold pyRound
  rw [hf, if_neg (by linarith), if_pos (by linarith)]

/-! ### Values produced by the range parsers are integral -/

theorem extract_min_int {s : String} {q : ℚ}
    (h : extract_minimum_of_range s = some q) : ∃ n : ℤ, q = (n : ℚ) := by
  simp only [extract_minimum_of_range] at h
  rcases hn : findNumbers (clean s) with _ | ⟨n, l⟩ <;> rw [hn] at h <;>
      split_ifs at h <;> simp at h
  · exact ⟨0, h.symm⟩
  · exact ⟨(n : ℤ), by exact_mod_cast h.symm⟩
  · exact ⟨(n : ℤ), by exact_mod_cast h.symm⟩

theorem extract_max_int {s : String} {q : ℚ}
    (h : extract_maximum_of_range s = some q) : ∃ n : ℤ, q = (n : ℚ) := by
  simp only [extract_maximum_of_range] at h
  rcases hn : findNumbers (clean s) with _ | ⟨n, _ | ⟨m, l⟩⟩ <;> rw [hn] at h <;>
      split_ifs at h <;> simp at h <;>
    first
      | exact ⟨(n : ℤ), by exact_mod_cast h.symm⟩
      | exact ⟨2 * (n : ℤ), by push_cast; linarith⟩
      | exact ⟨(m : ℤ), by exact_mod_cast h.symm⟩

/-! ### Share sums -/

theorem sumShares_nil : sumShares [] = 0 := rfl

theorem sumShares_cons (b : IncomeBracket) (d : List IncomeBracket) :
    sumShares (b :: d) = b.percentage + sumShares d := by
  simp [sumShares]

theorem sumShares_nonneg {d : List IncomeBracket}
    (h : ∀ b ∈ d, 0 ≤ b.percentage) : 0 ≤ sumShares d := by
  induction d with
  | nil => simp [sumShares_nil]
  | cons b rest ih =>
    rw [sumShares_cons]
    have := h b (List.mem_cons_self b rest)
    have := ih fun x hx => h x (List.mem_cons_of_mem _ hx)
    linarith

/-! ### Characterising the scans -/

theorem noCross_sum {t : ℚ} :
    ∀ {d : List IncomeBracket} {cum : ℚ}, NoCross t cum d → cum < t →
      cum + sumShares d < t := by
  intro d
  induction d with
  | nil => intro cum _ h; simpa [sumShares_nil]
  | cons b rest ih =>
    intro cum hnc hcum
    rw [sumShares_cons]
    have h2 := ih hnc.2 hnc.1
    linarith

theorem noCross_of_nonneg {t : ℚ} :
    ∀ {d : List IncomeBracket} {cum : ℚ}, (∀ b ∈ d, 0 ≤ b.percentage) →
      cum + sumShares d < t → NoCross t cum d := by
  intro d
  induction d with
  | nil => intro cum _ _; trivial
  | cons b rest ih =>
    intro cum hpos hsum
    rw [sumShares_cons] at hsum
    have hrest : 0 ≤ sumShares rest :=
      sumShares_nonneg fun x hx => hpos x (List.mem_cons_of_mem _ hx)
    exact ⟨by linarith, ih (fun x hx => hpos x (List.mem_cons_of_mem _ hx))
      (by linarith)⟩

/-- When the whole list sums past the target, some first bracket crosses. -/
theorem exists_cross (t : ℚ) :
    ∀ (d : List IncomeBracket) (cum : ℚ), cum < t → t ≤ cum + sumShares d →
      ∃ d1 b d2, d = d1 ++ b :: d2 ∧ NoCross t cum d1 ∧
        t ≤ cum + sumShares d1 + b.percentage := by
  intro d
  induction d with
  | nil =>
    intro cum h1 h2
    rw [sumShares_nil] at h2
    exact absurd (lt_of_lt_of_le h1 h2) (by simp)
  | cons b rest ih =>
    intro cum h1 h2
    by_cases hb : t ≤ cum + b.percentage
    · exact ⟨[], b, rest, rfl, trivial, by simpa [sumShares_nil]⟩
    · push_neg at hb
      rw [sumShares_cons] at h2
      obtain ⟨d1, c, d2, hsplit, hnc, hcr⟩ :=
        ih (cum + b.percentage) hb (by linarith)
      exact ⟨b :: d1, c, d2, by rw [hsplit]; rfl, ⟨hb, hnc⟩,
        by rw [sumShares_cons]; linarith⟩

theorem mem_of_last {l : List IncomeBracket} {b : IncomeBracket}
    (h : l.getLast? = some b) : b ∈ l := by
  induction l with
  | nil => simp at h
  | cons a rest ih =>
    cases rest with
    | nil => simp_all
    | cons c r2 =>
      rw [List.getLast?_cons_cons] at h
      exact List.mem_cons_of_mem _ (ih h)

/-! ### Behaviour of the three percentile scans at the crossing bracket,
and when the distribution is exhausted -/

theorem percentile75Loop_cross :
    ∀ (d1 : List IncomeBracket) (cum : ℚ) (b : IncomeBracket)
      (d2 : List IncomeBracket), NoCross 75 cum d1 →
      75 ≤ cum + sumShares d1 + b.percentage →
      percentile75Loop cum (d1 ++ b :: d2) =
        some ((extract_minimum_of_range b.range).getD 0) := by
  intro d1
  induction d1 with
  | nil =>
    intro cum b d2 _ hcr
    rw [sumShares_nil] at hcr
    simp only [List.nil_append, percentile75Loop]
    rw [if_pos (by linarith)]
  | cons a d1 ih =>
    intro cum b d2 hnc hcr
    rw [sumShares_cons] at hcr
    simp only [List.cons_append, percentile75Loop]
    rw [if_neg (by have := hnc.1; linarith)]
    exact ih _ b d2 hnc.2 (by linarith)

theorem percentile75Loop_exhaust :
    ∀ (d : List IncomeBracket) (cum : ℚ), NoCross 75 cum d →
      percentile75Loop cum d = none := by
  intro d
  induction d with
  | nil => intro cum _; rfl
  | cons b rest ih =>
    intro cum hnc
    simp only [percentile75Loop]
    rw [if_neg (by have := hnc.1; linarith)]
    exact ih _ hnc.2

theorem bottom25Loop_cross (t : ℚ) :
    ∀ (d1 : List IncomeBracket) (cum : ℚ) (b : IncomeBracket)
      (d2 : List IncomeBracket), NoCross t cum d1 →
      t ≤ cum + sumShares d1 + b.percentage →
      bottom25Loop t cum (d1 ++ b :: d2) =
        (crossValue t (cum + sumShares d1) b).map some := by
  intro d1
  induction d1 with
  | nil =>
    intro cum b d2 _ hcr
    rw [sumShares_nil] at hcr
    simp only [List.nil_append, bottom25Loop]
    rw [if_pos (by linarith), sumShares_nil, add_zero]
  | cons a d1 ih =>
    intro cum b d2 hnc hcr
    rw [sumShares_cons] at hcr
    simp only [List.cons_append, bottom25Loop]
    rw [if_neg (by have := hnc.1; linarith)]
    have hr := ih (cum + a.percentage) b d2 hnc.2 (by linarith)
    rw [sumShares_cons, ← add_assoc]
    exact hr

theorem bottom25Loop_exhaust (t : ℚ) :
    ∀ (d : List IncomeBracket) (cum : ℚ), NoCross t cum d →
      bottom25Loop t cum d = .ok none := by
  intro d
  induction d with
  | nil => intro cum _; rfl
  | cons b rest ih =>
    intro cum hnc
    simp only [bottom25Loop]
    rw [if_neg (by have := hnc.1; linarith)]
    exact ih _ hnc.2

theorem top75Loop_cross :
    ∀ (d1 : List IncomeBracket) (cum : ℚ) (b : IncomeBracket)
      (d2 : List IncomeBracket) (n : ℕ) (l : List ℕ), NoCross 25 cum d1 →
      25 ≤ cum + sumShares d1 + b.percentage →
      findNumbers (clean b.range) = n :: l →
      top75Loop cum (d1 ++ b :: d2) = .ok (some (n : ℚ)) := by
  intro d1
  induction d1 with
  | nil =>
    intro cum b d2 n l _ hcr htok
    rw [sumShares_nil] at hcr
    simp only [List.nil_append, top75Loop]
    rw [if_pos (by linarith), htok]
    split_ifs <;> rfl
  | cons a d1 ih =>
    intro cum b d2 n l hnc hcr htok
    rw [sumShares_cons] at hcr
    simp only [List.cons_append, top75Loop]
    rw [if_neg (by have := hnc.1; linarith)]
    exact ih _ b d2 n l hnc.2 (by linarith) htok

theorem top75Loop_exhaust :
    ∀ (d : List IncomeBracket) (cum : ℚ), NoCross 25 cum d →
      top75Loop cum d = .ok none := by
  intro d
  induction d with
  | nil => intro cum _; rfl
  | cons b rest ih =>
    intro cum hnc
    simp only [top75Loop]
    rw [if_neg (by have := hnc.1; linarith)]
    exact ih _ hnc.2

/-! ### Helpers for the interpolating estimator -/

theorem crossValue_parsed {t cum : ℚ} {b : IncomeBracket} {mn mx : ℚ}
    (hp : b.percentage ≠ 0) (hmn : extract_minimum_of_range b.range = some mn)
    (hmx : extract_maximum_of_range b.range = some mx) :
    crossValue t cum b =
      .ok ((pyRound (mn + (mx - mn) * ((t - cum) / b.percentage)) : ℤ) : ℚ) := by
  unfold crossValue
  rw [if_neg hp, hmn, hmx]

theorem crossValue_noMin {t cum : ℚ} {b : IncomeBracket}
    (hp : b.percentage ≠ 0) (hmn : extract_minimum_of_range b.range = none) :
    crossValue t cum b = .ok 0 := by
  unfold crossValue
  rw [if_neg hp, hmn]

theorem crossValue_isOk {t cum : ℚ} {b : IncomeBracket}
    (hp : b.percentage ≠ 0) : ∃ v, crossValue t cum b = .ok v := by
  unfold crossValue
  rw [if_neg hp]
  rcases h1 : extract_minimum_of_range b.range with _ | mn <;>
    rcases h2 : extract_maximum_of_range b.range with _ | mx <;>
      exact ⟨_, rfl⟩

theorem interp_bounds {mn mx t cum pct : ℚ} (hpct : 0 < pct) (hb : mn ≤ mx)
    (h1 : cum < t) (h2 : t ≤ cum + pct) :
    mn ≤ mn + (mx - mn) * ((t - cum) / pct) ∧
      mn + (mx - mn) * ((t - cum) / pct) ≤ mx := by
  have hfr0 : 0 ≤ (t - cum) / pct := div_nonneg (by linarith) hpct.le
  have hfr1 : (t - cum) / pct ≤ 1 := (div_le_one hpct).mpr (by linarith)
  constructor
  · nlinarith [mul_nonneg (sub_nonneg.mpr hb) hfr0]
  · nlinarith [mul_nonneg (sub_nonneg.mpr hb) (sub_nonneg.mpr hfr1)]

theorem interp_mono_target (mn mx p1 p2 cum pct : ℚ) (hpct : 0 < pct)
    (hb : mn ≤ mx) (h12 : p1 ≤ p2) :
    mn + (mx - mn) * ((p1 - cum) / pct) ≤ mn + (mx - mn) * ((p2 - cum) / pct) := by
  have hd : (p1 - cum) / pct ≤ (p2 - cum) / pct :=
    (div_le_div_iff_of_pos_right hpct).mpr (by linarith)
  nlinarith [mul_nonneg (sub_nonneg.mpr hb) (sub_nonneg.mpr hd)]

/-! ### Well-formed distributions (for the monotonicity analysis) -/

theorem goodBracket_bounds {b : IncomeBracket} (h : GoodBracket b) :
    extract_minimum_of_range b.range = some (mnv b) ∧
      extract_maximum_of_range b.range = some (mxv b) := by
  obtain ⟨mn, hmn⟩ := Option.isSome_iff_exists.mp h.1
  obtain ⟨mx, hmx⟩ := Option.isSome_iff_exists.mp h.2.1
  constructor
  · rw [hmn]; simp [mnv, hmn]
  · rw [hmx]; simp [mxv, hmx]

/-- The rounded interpolated value at a crossing bracket never exceeds
the bracket's parsed (integral) upper bound. -/
theorem cross_upper {p cum : ℚ} {b : IncomeBracket} (hgb : GoodBracket b)
    (hpct : 0 < b.percentage) (hcum : cum < p) (hc : p ≤ cum + b.percentage) :
    ((pyRound (mnv b + (mxv b - mnv b) * ((p - cum) / b.percentage)) : ℤ) : ℚ) ≤
      mxv b := by
  obtain ⟨nmx, hnmx⟩ := extract_max_int (goodBracket_bounds hgb).2
  have hx1 : mnv b + (mxv b - mnv b) * ((p - cum) / b.percentage) ≤ mxv b :=
    (interp_bounds hpct hgb.2.2 hcum hc).2
  have h5 : pyRound (mnv b + (mxv b - mnv b) * ((p - cum) / b.percentage)) ≤ nmx := by
    calc pyRound (mnv b + (mxv b - mnv b) * ((p - cum) / b.percentage))
        ≤ pyRound ((nmx : ℤ) : ℚ) := pyRound_mono (by rw [← hnmx]; exact hx1)
      _ = nmx := pyRound_intCast nmx
  calc ((pyRound (mnv b + (mxv b - mnv b) * ((p - cum) / b.percentage)) : ℤ) : ℚ)
      ≤ ((nmx : ℤ) : ℚ) := by exact_mod_cast h5
    _ = mxv b := hnmx.symm

theorem bottom25Loop_lower (t : ℚ) :
    ∀ (d : List IncomeBracket) (cum : ℚ) (lb : ℤ) (v : ℚ),
      (∀ x ∈ d, GoodBracket x) → (∀ x ∈ d, (lb : ℚ) ≤ mnv x) → cum < t →
      bottom25Loop t cum d = .ok (some v) → (lb : ℚ) ≤ v := by
  intro d
  induction d with
  | nil => intro cum lb v _ _ _ h; simp [bottom25Loop] at h
  | cons b rest ih =>
    intro cum lb v hgood hlb hcum h
    simp only [bottom25Loop] at h
    by_cases hc : t ≤ cum + b.percentage
    · rw [if_pos hc] at h
      have hpct : 0 < b.percentage := by linarith
      have hgb := hgood b (List.mem_cons_self b rest)
      obtain ⟨hmn, hmx⟩ := goodBracket_bounds hgb
      rw [crossValue_parsed hpct.ne.symm hmn hmx] at h
      simp only [Except.map] at h
      have hv : ((pyRound (mnv b + (mxv b - mnv b) * ((t - cum) / b.percentage)) : ℤ) : ℚ) = v := by
        simpa using h
      have hx : mnv b ≤ mnv b + (mxv b - mnv b) * ((t - cum) / b.percentage) :=
        (interp_bounds hpct hgb.2.2 hcum hc).1
      have hlbb : (lb : ℚ) ≤ mnv b := hlb b (List.mem_cons_self b rest)
      have h1 : lb ≤ pyRound (mnv b + (mxv b - mnv b) * ((t - cum) / b.percentage)) := by
        calc lb = pyRound ((lb : ℤ) : ℚ) := (pyRound_intCast lb).symm
          _ ≤ _ := pyRound_mono (by linarith)
      rw [← hv]
      exact_mod_cast h1
    · rw [if_neg hc] at h
      push_neg at hc
      exact ih (cum + b.percentage) lb v
        (fun x hx => hgood x (List.mem_cons_of_mem _ hx))
        (fun x hx => hlb x (List.mem_cons_of_mem _ hx)) (by linarith) h

theorem bottom25Loop_none_mono {p1 p2 : ℚ} (h12 : p1 ≤ p2) :
    ∀ (d : List IncomeBracket) (cum : ℚ),
      bottom25Loop p1 cum d = .ok none → bottom25Loop p2 cum d = .ok none := by
  intro d
  induction d with
  | nil => intro cum _; rfl
  | cons b rest ih =>
    intro cum h
    simp only [bottom25Loop] at h ⊢
    by_cases hc : p1 ≤ cum + b.percentage
    · rw [if_pos hc] at h
      rcases hcv : crossValue p1 cum b with e | x <;> rw [hcv] at h <;>
        simp [Except.map] at h
    · rw [if_neg hc] at h
      push_neg at hc
      rw [if_neg (by linarith)]
      exact ih _ h

theorem bottom25Loop_mono {p1 p2 : ℚ} (h12 : p1 ≤ p2) :
    ∀ (d : List IncomeBracket) (cum : ℚ) (v1 v2 : ℚ),
      (∀ x ∈ d, GoodBracket x) → AscendingBrackets d → cum < p1 →
      bottom25Loop p1 cum d = .ok (some v1) →
      bottom25Loop p2 cum d = .ok (some v2) → v1 ≤ v2 := by
  intro d
  induction d with
  | nil => intro cum v1 v2 _ _ _ h1 _; simp [bottom25Loop] at h1
  | cons b rest ih =>
    intro cum v1 v2 hgood hasc hcum h1 h2
    simp only [bottom25Loop] at h1 h2
    have hgb := hgood b (List.mem_cons_self b rest)
    by_cases hc2 : p2 ≤ cum + b.percentage
    · -- both targets cross at this bracket
      have hc1 : p1 ≤ cum + b.percentage := le_trans h12 hc2
      have hpct : 0 < b.percentage := by linarith
      obtain ⟨hmn, hmx⟩ := goodBracket_bounds hgb
      rw [if_pos hc1, crossValue_parsed hpct.ne.symm hmn hmx] at h1
      rw [if_pos hc2, crossValue_parsed hpct.ne.symm hmn hmx] at h2
      simp only [Except.map] at h1 h2
      have hv1 :
          ((pyRound (mnv b + (mxv b - mnv b) * ((p1 - cum) / b.percentage)) : ℤ) : ℚ) = v1 := by
        simpa using h1
      have hv2 :
          ((pyRound (mnv b + (mxv b - mnv b) * ((p2 - cum) / b.percentage)) : ℤ) : ℚ) = v2 := by
        simpa using h2
      rw [← hv1, ← hv2]
      have hmono := pyRound_mono
        (interp_mono_target (mnv b) (mxv b) p1 p2 cum b.percentage hpct hgb.2.2 h12)
      exact_mod_cast hmono
    · by_cases hc1 : p1 ≤ cum + b.percentage
      · -- p1 crosses here, p2 keeps scanning
        have hpct : 0 < b.percentage := by linarith
        obtain ⟨hmn, hmx⟩ := goodBracket_bounds hgb
        rw [if_pos hc1, crossValue_parsed hpct.ne.symm hmn hmx] at h1
        simp only [Except.map] at h1
        have hv1 :
            ((pyRound (mnv b + (mxv b - mnv b) * ((p1 - cum) / b.percentage)) : ℤ) : ℚ) = v1 := by
          simpa using h1
        obtain ⟨nmx, hnmx⟩ := extract_max_int hmx
        have hub : v1 ≤ mxv b := by
          rw [← hv1]
          exact cross_upper hgb hpct hcum hc1
        rw [if_neg hc2] at h2
        push_neg at hc2
        have hlow : ((nmx : ℤ) : ℚ) ≤ v2 := by
          refine bottom25Loop_lower p2 rest (cum + b.percentage) nmx v2
            (fun x hx => hgood x (List.mem_cons_of_mem _ hx)) ?_ (by linarith) h2
          intro x hx
          have hpair := (List.pairwise_cons.mp hasc).1 x hx
          rw [← hnmx]
          linarith
        rw [← hnmx] at hlow
        linarith
      · -- neither crosses here
        rw [if_neg hc1] at h1
        rw [if_neg hc2] at h2
        push_neg at hc1
        exact ih (cum + b.percentage) v1 v2
          (fun x hx => hgood x (List.mem_cons_of_mem _ hx))
          ((List.pairwise_cons.mp hasc).2) (by linarith) h1 h2

theorem bottom25Loop_some_none {p1 p2 : ℚ} (h12 : p1 ≤ p2) :
    ∀ (d : List IncomeBracket) (cum : ℚ) (v1 : ℚ) (bl : IncomeBracket),
      (∀ x ∈ d, GoodBracket x) → AscendingBrackets d → cum < p1 →
      bottom25Loop p1 cum d = .ok (some v1) →
      bottom25Loop p2 cum d = .ok none →
      d.getLast? = some bl → v1 ≤ mxv bl := by
  intro d
  induction d with
  | nil => intro cum v1 bl _ _ _ h1 _ _; simp [bottom25Loop] at h1
  | cons b rest ih =>
    intro cum v1 bl hgood hasc hcum h1 h2 hlast
    simp only [bottom25Loop] at h1 h2
    have hgb := hgood b (List.mem_cons_self b rest)
    by_cases hc2 : p2 ≤ cum + b.percentage
    · -- p2 would cross here, contradicting the `.ok none` outcome
      exfalso
      rw [if_pos hc2] at h2
      rcases hcv : crossValue p2 cum b with e | x <;> rw [hcv] at h2 <;>
        simp [Except.map] at h2
    · by_cases hc1 : p1 ≤ cum + b.percentage
      · -- p1 crosses here; bound its value by this bracket's maximum
        have hpct : 0 < b.percentage := by linarith
        obtain ⟨hmn, hmx⟩ := goodBracket_bounds hgb
        rw [if_pos hc1, crossValue_parsed hpct.ne.symm hmn hmx] at h1
        simp only [Except.map] at h1
        have hv1 :
            ((pyRound (mnv b + (mxv b - mnv b) * ((p1 - cum) / b.percentage)) : ℤ) : ℚ) = v1 := by
          simpa using h1
        have hub : v1 ≤ mxv b := by
          rw [← hv1]
          exact cross_upper hgb hpct hcum hc1
        cases rest with
        | nil =>
          simp only [List.getLast?_singleton, Option.some.injEq] at hlast
          rw [← hlast]
          exact hub
        | cons c r2 =>
          rw [List.getLast?_cons_cons] at hlast
          have hmem : bl ∈ c :: r2 := mem_of_last hlast
          have hpair := (List.pairwise_cons.mp hasc).1 bl hmem
          have hgbl := hgood bl (List.mem_cons_of_mem _ hmem)
          have := hgbl.2.2
          linarith
      · -- neither crosses here
        rw [if_neg hc1] at h1
        rw [if_neg hc2] at h2
        push_neg at hc1
        cases rest with
        | nil => simp [bottom25Loop] at h1
        | cons c r2 =>
          rw [List.getLast?_cons_cons] at hlast
          exact ih (cum + b.percentage) v1 bl
            (fun x hx => hgood x (List.mem_cons_of_mem _ hx))
            ((List.pairwise_cons.mp hasc).2) (by linarith) h1 h2 hlast

/-! ### Weighted-average bookkeeping -/

theorem estimateLoop_spec :
    ∀ (d : List IncomeBracket) (w t : ℚ),
      estimateLoop d w t =
        (w + ((countedPairs d).map fun p => p.1 * p.2).sum,
         t + ((countedPairs d).map Prod.snd).sum) := by
  intro d
  induction d with
  | nil => intro w t; simp [estimateLoop, countedPairs]
  | cons b rest ih =>
    intro w t
    rcases hm : extract_midpoint_of_range b.range with _ | m
    · have hcp : countedPairs (b :: rest) = countedPairs rest := by
        simp [countedPairs, List.filterMap_cons, hm]
      simp only [estimateLoop, hm]
      rw [ih, hcp]
    · by_cases hz : m = 0
      · have hcp : countedPairs (b :: rest) = countedPairs rest := by
          simp [countedPairs, List.filterMap_cons, hm, hz]
        simp only [estimateLoop, hm]
        rw [if_neg (by simp [hz]), ih, hcp]
      · have hcp : countedPairs (b :: rest) = (m, b.percentage) :: countedPairs rest := by
          simp [countedPairs, List.filterMap_cons, hm, hz]
        simp only [estimateLoop, hm]
        rw [if_pos hz, ih, hcp]
        simp only [List.map_cons, List.sum_cons, Prod.mk.injEq]
        constructor <;> ring

theorem average_eq_spec (d : List IncomeBracket) :
    estimate_average_from_distribution d = averageSpec d := by
  unfold estimate_average_from_distribution averageSpec
  rw [estimateLoop_spec d 0 0]
  simp

theorem tokenless_parsers (s : String) (h : findNumbers (clean s) = []) :
    extract_minimum_of_range s = none ∧ extract_maximum_of_range s = none ∧
      extract_midpoint_of_range s = none := by
  refine ⟨?_, ?_, ?_⟩
  · simp only [extract_minimum_of_range, h]
    split_ifs <;> rfl
  · simp only [extract_maximum_of_range, h]
    split_ifs <;> rfl
  · simp only [extract_midpoint_of_range, h]

theorem countedPairs_skip (d1 d2 : List IncomeBracket) (b : IncomeBracket)
    (h : extract_midpoint_of_range b.range = none) :
    countedPairs (d1 ++ b :: d2) = countedPairs (d1 ++ d2) := by
  induction d1 with
  | nil => simp [countedPairs, List.filterMap_cons, h]
  | cons a d1 ih =>
    simp only [List.cons_append, countedPairs, List.filterMap_cons]
    rw [show List.filterMap _ (d1 ++ b :: d2) = countedPairs (d1 ++ b :: d2) from rfl,
      show List.filterMap _ (d1 ++ d2) = countedPairs (d1 ++ d2) from rfl, ih]

theorem bottom25Loop_isOk (t : ℚ) :
    ∀ (d : List IncomeBracket) (cum : ℚ), cum < t →
      ∃ r, bottom25Loop t cum d = .ok r := by
  intro d
  induction d with
  | nil => intro cum _; exact ⟨none, rfl⟩
  | cons b rest ih =>
    intro cum hcum
    simp only [bottom25Loop]
    by_cases hc : t ≤ cum + b.percentage
    · rw [if_pos hc]
      obtain ⟨v, hv⟩ := @crossValue_isOk t cum b ((by linarith : (0:ℚ) < b.percentage).ne.symm)
      exact ⟨some v, by rw [hv]; rfl⟩
    · rw [if_neg hc]
      push_neg at hc
      exact ih _ (by linarith)

theorem thresholdInterp_isOk (t : ℚ) (d : List IncomeBracket) (ht : 0 < t) :
    ∃ v, thresholdForPercentileInterp t d = .ok v := by
  unfold thresholdForPercentileInterp
  obtain ⟨r, hr⟩ := bottom25Loop_isOk t d 0 ht
  rw [hr]
  rcases r with _ | v
  · rcases hl : d.getLast? with _ | b
    · exact ⟨0, rfl⟩
    · exact ⟨_, rfl⟩
  · exact ⟨v, rfl⟩

/-! ### Wrapper-level consequences of the scan lemmas -/

theorem calc75_at_cross (d1 : List IncomeBracket) (b : IncomeBracket)
    (d2 : List IncomeBracket) (mn : ℚ) (hnc : NoCross 75 0 d1)
    (hcr : 75 ≤ sumShares d1 + b.percentage)
    (hmn : extract_minimum_of_range b.range = some mn) :
    calculate_75th_percentile_threshold_from_distribution (d1 ++ b :: d2) = mn := by
  unfold calculate_75th_percentile_threshold_from_distribution
  rw [percentile75Loop_cross d1 0 b d2 hnc (by linarith)]
  simp [hmn]

theorem top75_at_cross (d1 : List IncomeBracket) (b : IncomeBracket)
    (d2 : List IncomeBracket) (n : ℕ) (l : List ℕ) (hnc : NoCross 25 0 d1)
    (hcr : 25 ≤ sumShares d1 + b.percentage)
    (htok : findNumbers (clean b.range) = n :: l) :
    calculate_top_75_threshold (d1 ++ b :: d2) = .ok (n : ℚ) := by
  unfold calculate_top_75_threshold
  rw [top75Loop_cross d1 0 b d2 n l hnc (by linarith) htok]

theorem min_of_plain (s : String) (n : ℕ) (l : List ℕ)
    (hu : hasUnder (clean s) = false) (htok : findNumbers (clean s) = n :: l) :
    extract_minimum_of_range s = some (n : ℚ) := by
  simp only [extract_minimum_of_range, hu, htok, Bool.false_eq_true, if_false]
  split_ifs <;> rfl

theorem max_of_plain2 (s : String) (a b : ℕ) (l : List ℕ)
    (hu : hasUnder (clean s) = false) (ho : hasOver (clean s) = false)
    (htok : findNumbers (clean s) = a :: b :: l) :
    extract_maximum_of_range s = some (b : ℚ) := by
  simp only [extract_maximum_of_range, hu, ho, htok, Bool.false_eq_true, if_false]

theorem max_of_plain1 (s : String) (a : ℕ)
    (hu : hasUnder (clean s) = false) (ho : hasOver (clean s) = false)
    (htok : findNumbers (clean s) = [a]) :
    extract_maximum_of_range s = some (a : ℚ) := by
  simp only [extract_maximum_of_range, hu, ho, htok, Bool.false_eq_true, if_false]

/-! ### Claim C9 -/

/-- C9: on the empty distribution every estimator — both
percentile-threshold functions of the fetch script, the analyzer's
threshold function, and the average estimator — returns 0 and does not
raise (the two fallible functions produce `.ok`). -/
theorem c9_empty_distribution_zero :
    calculate_75th_percentile_threshold_from_distribution [] = 0 ∧
    calculate_bottom_25_threshold_from_distribution [] = .ok 0 ∧
    calculate_top_75_threshold [] = .ok 0 ∧
    estimate_average_from_distribution [] = 0 := by
  refine ⟨rfl, rfl, rfl, ?_⟩
  norm_num [estimate_average_from_distribution, estimateLoop]

/-! ### Claim C3 -/

/-- C3: the two implementations of the "top 75% threshold" disagree on
the sample distribution embedded in the fetch script:
`calculate_75th_percentile_threshold_from_distribution` (crossing at
cumulative ≥ 75) returns 90000 while `calculate_top_75_threshold`
(crossing at cumulative ≥ 25) returns 30000. -/
theorem c3_implementations_disagree :
    calculate_75th_percentile_threshold_from_distribution sampleDistribution = 90000 ∧
    calculate_top_75_threshold sampleDistribution = .ok 30000 ∧
    (90000 : ℚ) ≠ 30000 := by
  refine ⟨?_, ?_, by norm_num⟩
  · have h1 : hasUnder (clean ("$90,000 to $99,999")) = false := by decide
    have h2 : hasOver (clean ("$90,000 to $99,999")) = false := by decide
    have h3 : findNumbers (clean ("$90,000 to $99,999")) = [90000, 99999] := by decide
    norm_num [calculate_75th_percentile_threshold_from_distribution,
      percentile75Loop, sampleDistribution, extract_minimum_of_range, h1, h2, h3]
  · have h1 : (clean ("$30,000 to $39,999")).contains '<' = false := by decide
    have h2 : findNumbers (clean ("$30,000 to $39,999")) = [30000, 39999] := by decide
    norm_num [calculate_top_75_threshold, top75Loop, sampleDistribution, h1, h2]

/-! ### Claim C8 -/

/-- C8: on a distribution with non-negative shares the interpolating
estimator never fails with a division by zero: a zero-share bracket can
never be the crossing bracket (the scan's invariant `cum < 25` forces the
crossing bracket's share to be positive), so the result is always `.ok`. -/
theorem c8_no_division_failure (d : List IncomeBracket)
    (hpos : ∀ b ∈ d, 0 ≤ b.percentage) :
    ∃ v, calculate_bottom_25_threshold_from_distribution d = .ok v := by
  unfold calculate_bottom_25_threshold_from_distribution
  exact thresholdInterp_isOk 25 d (by norm_num)

theorem c8_witness :
    (∀ b ∈ [IncomeBracket.mk ("$0 to $10") 0], 0 ≤ b.percentage) ∧
    ∃ v, calculate_bottom_25_threshold_from_distribution
      [IncomeBracket.mk ("$0 to $10") 0] = .ok v := by
  have hb : ∀ b ∈ [IncomeBracket.mk ("$0 to $10") 0], 0 ≤ b.percentage := by
    intro b hb
    simp only [List.mem_singleton] at hb
    subst hb
    norm_num
  exact ⟨hb, c8_no_division_failure [IncomeBracket.mk ("$0 to $10") 0] hb⟩

/-! ### Claim C2 -/

/-- C2: whenever the scan of the interpolating estimator reaches its
target of 25 at a first-crossing bracket whose bounds both parse, the
result is round(minBound + ((target − cumulativeBefore)/share) ×
(maxBound − minBound)) — linear interpolation inside the crossing
bracket, rounded to the nearest whole unit (Python's `round`, ties to
even). -/
theorem c2_interp_formula (d1 : List IncomeBracket) (b : IncomeBracket)
    (d2 : List IncomeBracket) (mn mx : ℚ)
    (hfirst : NoCross 25 0 d1)
    (hcross : 25 ≤ sumShares d1 + b.percentage)
    (hmn : extract_minimum_of_range b.range = some mn)
    (hmx : extract_maximum_of_range b.range = some mx) :
    calculate_bottom_25_threshold_from_distribution (d1 ++ b :: d2) =
      .ok ((pyRound (mn + ((25 - sumShares d1) / b.percentage) * (mx - mn)) : ℤ) : ℚ) := by
  have hsum : sumShares d1 < 25 := by
    have := noCross_sum hfirst (show (0:ℚ) < 25 by norm_num)
    linarith
  have hpct : 0 < b.percentage := by linarith
  unfold calculate_bottom_25_threshold_from_distribution thresholdForPercentileInterp
  rw [bottom25Loop_cross 25 d1 0 b d2 hfirst (by linarith),
    crossValue_parsed hpct.ne.symm hmn hmx]
  show Except.ok
      ((pyRound (mn + (mx - mn) * ((25 - (0 + sumShares d1)) / b.percentage)) : ℤ) : ℚ) = _
  rw [show mn + (mx - mn) * ((25 - (0 + sumShares d1)) / b.percentage)
      = mn + ((25 - sumShares d1) / b.percentage) * (mx - mn) by ring]

theorem c2_witness :
    calculate_bottom_25_threshold_from_distribution
      [IncomeBracket.mk ("$0 to $100") 50] = .ok 50 := by
  have hu : hasUnder (clean ("$0 to $100")) = false := by decide
  have ho : hasOver (clean ("$0 to $100")) = false := by decide
  have htok : findNumbers (clean ("$0 to $100")) = [0, 100] := by decide
  have hmn : extract_minimum_of_range ("$0 to $100") = some 0 := by
    have := min_of_plain ("$0 to $100") 0 [0, 100].tail hu htok
    simpa using this
  have hmx : extract_maximum_of_range ("$0 to $100") = some 100 := by
    have := max_of_plain2 ("$0 to $100") 0 100 [] hu ho htok
    simpa using this
  have h := c2_interp_formula [] (IncomeBracket.mk ("$0 to $100") 50) [] 0 100
    trivial (by norm_num [sumShares_nil]) hmn hmx
  rw [show ([] ++ IncomeBracket.mk ("$0 to $100") 50 :: []) =
    [IncomeBracket.mk ("$0 to $100") 50] from rfl] at h
  rw [h]
  rw [show (0:ℚ) + ((25 - sumShares []) / (IncomeBracket.mk ("$0 to $100") 50).percentage) * (100 - 0)
      = 50 by rw [sumShares_nil]; norm_num]
  rw [pyRound_eq_low 50 50 (by norm_num) (by norm_num)]
  norm_num

/-! ### Claim C1 -/

/-- C1 counterexample: on the single-bracket distribution labelled
"Under $10,000" with share 100, the analyzer's boundary estimator
`calculate_top_75_threshold` returns 10000, the label's first numeric
token, while the range parser's minBound for that label is 0 — so the
estimator does not return the minBound of the crossing bracket, and its
result is not the minBound of any bracket of the distribution. -/
theorem c1_counterexample :
    calculate_top_75_threshold [IncomeBracket.mk ("Under $10,000") 100] = .ok 10000 ∧
    extract_minimum_of_range ("Under $10,000") = some 0 ∧
    (10000 : ℚ) ≠ 0 := by
  have h1 : (clean ("Under $10,000")).contains '<' = false := by decide
  have h2 : findNumbers (clean ("Under $10,000")) = [10000] := by decide
  have h3 : hasUnder (clean ("Under $10,000")) = true := by decide
  refine ⟨?_, ?_, by norm_num⟩
  · norm_num [calculate_top_75_threshold, top75Loop, h1, h2]
  · simp [extract_minimum_of_range, h3, h2]

/-- C1 amended: (1) the fetch-script boundary estimator returns the
parsed minBound of the first bracket at which the cumulative share
reaches 75, whenever that bracket's label parses; (2) the analyzer's
estimator returns the FIRST NUMERIC TOKEN of the first crossing bracket
(target 25) whose label has one; (3) for labels that are not
"under"-style, that first token IS the parser's minBound; (4) hence on a
distribution whose shares sum to exactly 100 and whose labels all have a
numeric token and no under-marker, each estimator's result is the
minBound of some bracket of the distribution. -/
theorem c1_amended :
    (∀ (d1 : List IncomeBracket) (b : IncomeBracket) (d2 : List IncomeBracket)
        (mn : ℚ), NoCross 75 0 d1 → 75 ≤ sumShares d1 + b.percentage →
        extract_minimum_of_range b.range = some mn →
        calculate_75th_percentile_threshold_from_distribution (d1 ++ b :: d2) = mn) ∧
    (∀ (d1 : List IncomeBracket) (b : IncomeBracket) (d2 : List IncomeBracket)
        (n : ℕ) (l : List ℕ), NoCross 25 0 d1 → 25 ≤ sumShares d1 + b.percentage →
        findNumbers (clean b.range) = n :: l →
        calculate_top_75_threshold (d1 ++ b :: d2) = .ok (n : ℚ)) ∧
    (∀ (s : String) (n : ℕ) (l : List ℕ), hasUnder (clean s) = false →
        findNumbers (clean s) = n :: l →
        extract_minimum_of_range s = some (n : ℚ)) ∧
    (∀ d : List IncomeBracket, sumShares d = 100 →
        (∀ b ∈ d, hasUnder (clean b.range) = false ∧
          ∃ n l, findNumbers (clean b.range) = n :: l) →
        (∃ b1 ∈ d, ∃ m1, extract_minimum_of_range b1.range = some m1 ∧
          calculate_75th_percentile_threshold_from_distribution d = m1) ∧
        (∃ b2 ∈ d, ∃ m2, extract_minimum_of_range b2.range = some m2 ∧
          calculate_top_75_threshold d = .ok m2)) := by
  refine ⟨calc75_at_cross, top75_at_cross, min_of_plain, ?_⟩
  intro d hsum hlab
  constructor
  · obtain ⟨d1, b, d2, hd, hnc, hcr⟩ := exists_cross 75 d 0 (by norm_num)
      (by rw [hsum]; norm_num)
    have hbmem : b ∈ d := by rw [hd]; simp
    obtain ⟨hu, n, l, htok⟩ := hlab b hbmem
    refine ⟨b, hbmem, (n : ℚ), min_of_plain b.range n l hu htok, ?_⟩
    rw [hd]
    exact calc75_at_cross d1 b d2 (n : ℚ) hnc (by linarith)
      (min_of_plain b.range n l hu htok)
  · obtain ⟨d1, b, d2, hd, hnc, hcr⟩ := exists_cross 25 d 0 (by norm_num)
      (by rw [hsum]; norm_num)
    have hbmem : b ∈ d := by rw [hd]; simp
    obtain ⟨hu, n, l, htok⟩ := hlab b hbmem
    refine ⟨b, hbmem, (n : ℚ), min_of_plain b.range n l hu htok, ?_⟩
    rw [hd]
    exact top75_at_cross d1 b d2 n l hnc (by linarith) htok

theorem c1_witness :
    calculate_75th_percentile_threshold_from_distribution
      [IncomeBracket.mk ("$0 to $40") 60, IncomeBracket.mk ("$40 to $100") 40] = 40 ∧
    calculate_top_75_threshold
      [IncomeBracket.mk ("$0 to $40") 60, IncomeBracket.mk ("$40 to $100") 40] = .ok 0 := by
  have hu1 : hasUnder (clean ("$0 to $40")) = false := by decide
  have htok1 : findNumbers (clean ("$0 to $40")) = [0, 40] := by decide
  have hu2 : hasUnder (clean ("$40 to $100")) = false := by decide
  have htok2 : findNumbers (clean ("$40 to $100")) = [40, 100] := by decide
  constructor
  · have hmn : extract_minimum_of_range ("$40 to $100") = some 40 := by
      have := min_of_plain ("$40 to $100") 40 [100] hu2 htok2
      simpa using this
    have h := c1_amended.1 [IncomeBracket.mk ("$0 to $40") 60]
      (IncomeBracket.mk ("$40 to $100") 40) [] 40
      (by exact ⟨by norm_num, trivial⟩) (by norm_num [sumShares]) hmn
    exact h
  · have h := c1_amended.2.1 [] (IncomeBracket.mk ("$0 to $40") 60)
      [IncomeBracket.mk ("$40 to $100") 40] 0 [40]
      trivial (by norm_num [sumShares_nil]) htok1
    simpa using h

/-! ### Claim C4 -/

/-- C4 counterexample: the claim's two-token clause ignores the
under/over precedence: the label "1 under 2" has the two numeric tokens
1 and 2, yet the parser pair returns bounds (0, 1) — the under-branch
fires first — not (1, 2). -/
theorem c4_counterexample :
    extract_minimum_of_range ("1 under 2") = some 0 ∧
    extract_maximum_of_range ("1 under 2") = some 1 ∧
    ¬ (extract_minimum_of_range ("1 under 2") = some 1 ∧
       extract_maximum_of_range ("1 under 2") = some 2) := by
  have h3 : hasUnder (clean ("1 under 2")) = true := by decide
  have h2 : findNumbers (clean ("1 under 2")) = [1, 2] := by decide
  have hmin : extract_minimum_of_range ("1 under 2") = some 0 := by
    simp [extract_minimum_of_range, h3, h2]
  have hmax : extract_maximum_of_range ("1 under 2") = some 1 := by
    simp [extract_maximum_of_range, h3, h2]
  refine ⟨hmin, hmax, ?_⟩
  rintro ⟨ha, _⟩
  rw [hmin] at ha
  norm_num at ha

/-- C4 amended: for labels with no under/over/plus marker, two numeric
tokens parse to bounds (first, second) and a single numeric token parses
to (token, token); and the three concrete examples of the spec hold:
"Under $10,000" ↦ (0, 10000), "$50,000 to $79,999" ↦ (50000, 79999),
"$200,000 and over" ↦ (200000, 400000) — the unbounded top capped at
2 × 200000 for midpoint estimation. -/
theorem c4_amended :
    (∀ (s : String) (a b : ℕ) (l : List ℕ), hasUnder (clean s) = false →
        hasOver (clean s) = false → findNumbers (clean s) = a :: b :: l →
        extract_minimum_of_range s = some (a : ℚ) ∧
        extract_maximum_of_range s = some (b : ℚ)) ∧
    (∀ (s : String) (a : ℕ), hasUnder (clean s) = false →
        hasOver (clean s) = false → findNumbers (clean s) = [a] →
        extract_minimum_of_range s = some (a : ℚ) ∧
        extract_maximum_of_range s = some (a : ℚ)) ∧
    (extract_minimum_of_range ("Under $10,000") = some 0 ∧
     extract_maximum_of_range ("Under $10,000") = some 10000) ∧
    (extract_minimum_of_range ("$50,000 to $79,999") = some 50000 ∧
     extract_maximum_of_range ("$50,000 to $79,999") = some 79999) ∧
    (extract_minimum_of_range ("$200,000 and over") = some 200000 ∧
     extract_maximum_of_range ("$200,000 and over") = some 400000) := by
  refine ⟨?_, ?_, ?_, ?_, ?_⟩
  · intro s a b l hu ho htok
    exact ⟨min_of_plain s a (b :: l) hu htok, max_of_plain2 s a b l hu ho htok⟩
  · intro s a hu ho htok
    exact ⟨min_of_plain s a [] hu htok, max_of_plain1 s a hu ho htok⟩
  · have h3 : hasUnder (clean ("Under $10,000")) = true := by decide
    have h2 : findNumbers (clean ("Under $10,000")) = [10000] := by decide
    constructor
    · simp [extract_minimum_of_range, h3, h2]
    · simp [extract_maximum_of_range, h3, h2]
  · have hu : hasUnder (clean ("$50,000 to $79,999")) = false := by decide
    have ho : hasOver (clean ("$50,000 to $79,999")) = false := by decide
    have htok : findNumbers (clean ("$50,000 to $79,999")) = [50000, 79999] := by decide
    constructor
    · have := min_of_plain ("$50,000 to $79,999") 50000 [79999] hu htok
      simpa using this
    · have := max_of_plain2 ("$50,000 to $79,999") 50000 79999 [] hu ho htok
      simpa using this
  · have hu : hasUnder (clean ("$200,000 and over")) = false := by decide
    have ho : hasOver (clean ("$200,000 and over")) = true := by decide
    have htok : findNumbers (clean ("$200,000 and over")) = [200000] := by decide
    constructor
    · norm_num [extract_minimum_of_range, hu, ho, htok]
    · norm_num [extract_maximum_of_range, hu, ho, htok]

theorem c4_witness :
    extract_minimum_of_range ("$5 to $9") = some 5 ∧
    extract_maximum_of_range ("$5 to $9") = some 9 := by
  have h := c4_amended.1 ("$5 to $9") 5 9 [] (by decide) (by decide) (by decide)
  simpa using h

/-! ### Claim C5 -/

/-- For labels free of every marker the analyzer's midpoint is the mean
of the fetch-script parser's bounds. -/
theorem midpoint_of_marker_free (s : String) (mn mx : ℚ)
    (hu : hasUnder (clean s) = false) (ho : hasOver (clean s) = false)
    (hlt : (clean s).contains '<' = false)
    (hgt : (clean s).contains '>' = false)
    (hpl : (clean s).contains '+' = false)
    (hlen : (findNumbers (clean s)).length ≤ 2)
    (hmn : extract_minimum_of_range s = some mn)
    (hmx : extract_maximum_of_range s = some mx) :
    extract_midpoint_of_range s = some ((mn + mx) / 2) := by
  rcases htok : findNumbers (clean s) with _ | ⟨a, _ | ⟨b, l⟩⟩
  · rw [(tokenless_parsers s htok).1] at hmn
    exact absurd hmn (by simp)
  · have h1 := min_of_plain s a [] hu htok
    have h2 := max_of_plain1 s a hu ho htok
    rw [h1] at hmn
    rw [h2] at hmx
    have hmn2 : mn = (a : ℚ) := by simpa using hmn.symm
    have hmx2 : mx = (a : ℚ) := by simpa using hmx.symm
    simp only [extract_midpoint_of_range, htok, hlt, hgt, hpl, Bool.false_eq_true,
      if_false, Bool.or_self]
    rw [hmn2, hmx2]
    norm_num
  · have hl : l = [] := by
      cases l with
      | nil => rfl
      | cons x xs =>
        rw [htok] at hlen
        simp only [List.length_cons] at hlen
        omega
    subst hl
    have h1 := min_of_plain s a [b] hu htok
    have h2 := max_of_plain2 s a b [] hu ho htok
    rw [h1] at hmn
    rw [h2] at hmx
    have hmn2 : mn = (a : ℚ) := by simpa using hmn.symm
    have hmx2 : mx = (b : ℚ) := by simpa using hmx.symm
    simp only [extract_midpoint_of_range, htok]
    rw [hmn2, hmx2]

/-- C5 counterexample: (1) Python's `if mid_point:` truthiness drops a
parseable bracket whose midpoint is 0, so the average over
[$0–$0: 50%, $10–$10: 50%] is 10, not the weighted mean 5 of all
parseable brackets; (2) for word-form open labels the analyzer's
midpoint is NOT (minBound + cappedMaxBound)/2: "$200,000 and over" has
parsed bounds (200000, 400000) but midpoint 200000, not 300000. -/
theorem c5_counterexample :
    estimate_average_from_distribution
      [IncomeBracket.mk ("$0 to $0") 50, IncomeBracket.mk ("$10 to $10") 50] = 10 ∧
    extract_midpoint_of_range ("$0 to $0") = some 0 ∧
    extract_midpoint_of_range ("$10 to $10") = some 10 ∧
    (10 : ℚ) ≠ (0 * 50 + 10 * 50) / (50 + 50) ∧
    extract_midpoint_of_range ("$200,000 and over") = some 200000 ∧
    extract_minimum_of_range ("$200,000 and over") = some 200000 ∧
    extract_maximum_of_range ("$200,000 and over") = some 400000 ∧
    (200000 : ℚ) ≠ (200000 + 400000) / 2 := by
  have t1 : findNumbers (clean ("$0 to $0")) = [0, 0] := by decide
  have t2 : findNumbers (clean ("$10 to $10")) = [10, 10] := by decide
  have t3 : findNumbers (clean ("$200,000 and over")) = [200000] := by decide
  have hu3 : hasUnder (clean ("$200,000 and over")) = false := by decide
  have ho3 : hasOver (clean ("$200,000 and over")) = true := by decide
  have hlt3 : (clean ("$200,000 and over")).contains '<' = false := by decide
  have hgt3 : (clean ("$200,000 and over")).contains '>' = false := by decide
  have hpl3 : (clean ("$200,000 and over")).contains '+' = false := by decide
  have hm1 : extract_midpoint_of_range ("$0 to $0") = some 0 := by
    norm_num [extract_midpoint_of_range, t1]
  have hm2 : extract_midpoint_of_range ("$10 to $10") = some 10 := by
    norm_num [extract_midpoint_of_range, t2]
  have hlt4 : ¬ ('<' ∈ clean ("$200,000 and over")) := by decide
  have hgt4 : ¬ ('>' ∈ clean ("$200,000 and over")) := by decide
  have hpl4 : ¬ ('+' ∈ clean ("$200,000 and over")) := by decide
  refine ⟨?_, hm1, hm2, by norm_num, ?_, ?_, ?_, by norm_num⟩
  · norm_num [estimate_average_from_distribution, estimateLoop, hm1, hm2]
  · norm_num [extract_midpoint_of_range, t3, hlt3, hgt3, hpl3, hlt4, hgt4, hpl4]
  · norm_num [extract_minimum_of_range, hu3, ho3, t3]
  · norm_num [extract_maximum_of_range, hu3, ho3, t3]

/-- C5 amended: `estimate_average_from_distribution` equals the
percentage-weighted mean of midpoints taken over the brackets whose
parsed midpoint is NONZERO (Python truthiness; zero when the counted
share is not positive); for marker-free labels the midpoint is
(minBound + maxBound)/2 of the parsed bounds; and the spec's concrete
test holds: a single bracket with bounds 0 and 100000 and share 100
yields 50000. -/
theorem c5_amended :
    (∀ d : List IncomeBracket,
        estimate_average_from_distribution d = averageSpec d) ∧
    (∀ (s : String) (mn mx : ℚ), hasUnder (clean s) = false →
        hasOver (clean s) = false → (clean s).contains '<' = false →
        (clean s).contains '>' = false → (clean s).contains '+' = false →
        (findNumbers (clean s)).length ≤ 2 →
        extract_minimum_of_range s = some mn →
        extract_maximum_of_range s = some mx →
        extract_midpoint_of_range s = some ((mn + mx) / 2)) ∧
    estimate_average_from_distribution
      [IncomeBracket.mk ("$0 to $100,000") 100] = 50000 := by
  refine ⟨average_eq_spec, midpoint_of_marker_free, ?_⟩
  have t1 : findNumbers (clean ("$0 to $100,000")) = [0, 100000] := by decide
  have hm : extract_midpoint_of_range ("$0 to $100,000") = some 50000 := by
    norm_num [extract_midpoint_of_range, t1]
  norm_num [estimate_average_from_distribution, estimateLoop, hm]

theorem c5_witness :
    estimate_average_from_distribution [IncomeBracket.mk ("$5 to $15") 10] =
      averageSpec [IncomeBracket.mk ("$5 to $15") 10] ∧
    extract_midpoint_of_range ("$5 to $15") = some ((5 + 15) / 2) := by
  constructor
  · exact c5_amended.1 [IncomeBracket.mk ("$5 to $15") 10]
  · have hu : hasUnder (clean ("$5 to $15")) = false := by decide
    have ho : hasOver (clean ("$5 to $15")) = false := by decide
    have htok : findNumbers (clean ("$5 to $15")) = [5, 15] := by decide
    have hmn : extract_minimum_of_range ("$5 to $15") = some 5 := by
      have := min_of_plain ("$5 to $15") 5 [15] hu htok
      simpa using this
    have hmx : extract_maximum_of_range ("$5 to $15") = some 15 := by
      have := max_of_plain2 ("$5 to $15") 5 15 [] hu ho htok
      simpa using this
    exact c5_amended.2.1 ("$5 to $15") 5 15 hu ho (by decide) (by decide) (by decide)
      (by rw [htok]; norm_num) hmn hmx

/-! ### Claim C6 -/

/-- C6 counterexample: when the scan exhausts the distribution (shares
sum to 10 < 25), the analyzer's `calculate_top_75_threshold` returns the
FIRST numeric token of the last bracket — its lower bound 10000 — not
the bracket's maxBound 19999 as the claim states for every estimator. -/
theorem c6_counterexample :
    calculate_top_75_threshold [IncomeBracket.mk ("$10,000 to $19,999") 10] =
      .ok 10000 ∧
    extract_maximum_of_range ("$10,000 to $19,999") = some 19999 ∧
    (10000 : ℚ) ≠ 19999 := by
  have hu : hasUnder (clean ("$10,000 to $19,999")) = false := by decide
  have ho : hasOver (clean ("$10,000 to $19,999")) = false := by decide
  have htok : findNumbers (clean ("$10,000 to $19,999")) = [10000, 19999] := by decide
  refine ⟨?_, ?_, by norm_num⟩
  · norm_num [calculate_top_75_threshold, top75Loop, htok]
  · have := max_of_plain2 ("$10,000 to $19,999") 10000 19999 [] hu ho htok
    simpa using this

/-- C6 amended: on a non-empty distribution with non-negative shares
summing to strictly less than the target, the two fetch-script
estimators return the parsed maxBound of the last bracket (2×N cap for
unbounded labels, via `extract_maximum_of_range`), while the analyzer's
`calculate_top_75_threshold` returns the FIRST numeric token of the last
bracket's label instead. -/
theorem c6_amended :
    (∀ (d : List IncomeBracket) (bl : IncomeBracket) (mx : ℚ),
        (∀ x ∈ d, 0 ≤ x.percentage) → sumShares d < 25 →
        d.getLast? = some bl → extract_maximum_of_range bl.range = some mx →
        calculate_75th_percentile_threshold_from_distribution d = mx ∧
        calculate_bottom_25_threshold_from_distribution d = .ok mx) ∧
    (∀ (d : List IncomeBracket) (bl : IncomeBracket) (n : ℕ) (l : List ℕ),
        (∀ x ∈ d, 0 ≤ x.percentage) → sumShares d < 25 →
        d.getLast? = some bl → findNumbers (clean bl.range) = n :: l →
        calculate_top_75_threshold d = .ok (n : ℚ)) := by
  constructor
  · intro d bl mx hpos hsum hlast hmx
    constructor
    · unfold calculate_75th_percentile_threshold_from_distribution
      rw [percentile75Loop_exhaust d 0 (noCross_of_nonneg hpos (by linarith)),
        hlast]
      show (extract_maximum_of_range bl.range).getD 0 = mx
      rw [hmx]
      rfl
    · unfold calculate_bottom_25_threshold_from_distribution
        thresholdForPercentileInterp
      rw [bottom25Loop_exhaust 25 d 0 (noCross_of_nonneg hpos (by linarith)),
        hlast]
      show Except.ok ((extract_maximum_of_range bl.range).getD 0) = Except.ok mx
      rw [hmx]
      rfl
  · intro d bl n l hpos hsum hlast htok
    unfold calculate_top_75_threshold
    rw [top75Loop_exhaust d 0 (noCross_of_nonneg hpos (by linarith)), hlast]
    show (match findNumbers (clean bl.range) with
      | m :: _ => Except.ok (m : ℚ)
      | [] => Except.ok 0) = Except.ok (n : ℚ)
    rw [htok]

theorem c6_witness :
    calculate_75th_percentile_threshold_from_distribution
      [IncomeBracket.mk ("$10,000 to $19,999") 10] = 19999 ∧
    calculate_bottom_25_threshold_from_distribution
      [IncomeBracket.mk ("$10,000 to $19,999") 10] = .ok 19999 ∧
    calculate_top_75_threshold [IncomeBracket.mk ("$10,000 to $19,999") 10] =
      .ok 10000 := by
  have hu : hasUnder (clean ("$10,000 to $19,999")) = false := by decide
  have ho : hasOver (clean ("$10,000 to $19,999")) = false := by decide
  have htok : findNumbers (clean ("$10,000 to $19,999")) = [10000, 19999] := by decide
  have hmx : extract_maximum_of_range ("$10,000 to $19,999") = some 19999 := by
    have := max_of_plain2 ("$10,000 to $19,999") 10000 19999 [] hu ho htok
    simpa using this
  have hpos : ∀ x ∈ [IncomeBracket.mk ("$10,000 to $19,999") 10], 0 ≤ x.percentage := by
    intro x hx
    simp only [List.mem_singleton] at hx
    subst hx
    norm_num
  have h1 := c6_amended.1 [IncomeBracket.mk ("$10,000 to $19,999") 10]
    (IncomeBracket.mk ("$10,000 to $19,999") 10) 19999 hpos
    (by norm_num [sumShares]) rfl hmx
  have h2 := c6_amended.2 [IncomeBracket.mk ("$10,000 to $19,999") 10]
    (IncomeBracket.mk ("$10,000 to $19,999") 10) 10000 [19999] hpos
    (by norm_num [sumShares]) rfl htok
  refine ⟨h1.1, h1.2, by simpa using h2⟩

/-! ### Claim C7 -/

/-- C7 counterexample: an unparseable bracket is NOT inert for the
interpolating estimator — its share still accumulates and it can become
the crossing bracket: prepending the tokenless bracket "no data" (share
50) to [$10–$20: 50%] changes `calculate_bottom_25_threshold_from_distribution`
from 15 to 0. -/
theorem c7_counterexample :
    findNumbers (clean ("no data")) = [] ∧
    calculate_bottom_25_threshold_from_distribution
      [IncomeBracket.mk ("no data") 50, IncomeBracket.mk ("$10 to $20") 50] = .ok 0 ∧
    calculate_bottom_25_threshold_from_distribution
      [IncomeBracket.mk ("$10 to $20") 50] = .ok 15 ∧
    calculate_bottom_25_threshold_from_distribution
        [IncomeBracket.mk ("no data") 50, IncomeBracket.mk ("$10 to $20") 50] ≠
      calculate_bottom_25_threshold_from_distribution
        [IncomeBracket.mk ("$10 to $20") 50] := by
  have htok : findNumbers (clean ("no data")) = [] := by decide
  have hu : hasUnder (clean ("$10 to $20")) = false := by decide
  have ho : hasOver (clean ("$10 to $20")) = false := by decide
  have ht2 : findNumbers (clean ("$10 to $20")) = [10, 20] := by decide
  have hmn : extract_minimum_of_range ("$10 to $20") = some 10 := by
    have := min_of_plain ("$10 to $20") 10 [20] hu ht2
    simpa using this
  have hmx : extract_maximum_of_range ("$10 to $20") = some 20 := by
    have := max_of_plain2 ("$10 to $20") 10 20 [] hu ho ht2
    simpa using this
  have hnone := (tokenless_parsers ("no data") htok).1
  have e1 : calculate_bottom_25_threshold_from_distribution
      [IncomeBracket.mk ("no data") 50, IncomeBracket.mk ("$10 to $20") 50] = .ok 0 := by
    unfold calculate_bottom_25_threshold_from_distribution thresholdForPercentileInterp
    have hcr := bottom25Loop_cross 25 [] 0 (IncomeBracket.mk ("no data") 50)
      [IncomeBracket.mk ("$10 to $20") 50] trivial (by norm_num [sumShares_nil])
    rw [show ([] : List IncomeBracket) ++ IncomeBracket.mk ("no data") 50 ::
        [IncomeBracket.mk ("$10 to $20") 50] =
      [IncomeBracket.mk ("no data") 50, IncomeBracket.mk ("$10 to $20") 50] from rfl] at hcr
    rw [hcr, crossValue_noMin (by norm_num) hnone]
    rfl
  have e2 : calculate_bottom_25_threshold_from_distribution
      [IncomeBracket.mk ("$10 to $20") 50] = .ok 15 := by
    unfold calculate_bottom_25_threshold_from_distribution thresholdForPercentileInterp
    have hcr := bottom25Loop_cross 25 [] 0 (IncomeBracket.mk ("$10 to $20") 50)
      [] trivial (by norm_num [sumShares_nil])
    rw [show ([] : List IncomeBracket) ++ IncomeBracket.mk ("$10 to $20") 50 :: [] =
      [IncomeBracket.mk ("$10 to $20") 50] from rfl] at hcr
    rw [hcr, crossValue_parsed (by norm_num) hmn hmx]
    show Except.ok ((pyRound ((10:ℚ) + (20 - 10) * ((25 - (0 + sumShares [])) / 50)) : ℤ) : ℚ) = _
    rw [show (10:ℚ) + (20 - 10) * ((25 - (0 + sumShares [])) / 50) = 15 by
      rw [sumShares_nil]; norm_num]
    rw [pyRound_eq_low 15 15 (by norm_num) (by norm_num)]
    norm_num
  refine ⟨htok, e1, e2, ?_⟩
  rw [e1, e2]
  simp only [ne_eq, Except.ok.injEq]
  norm_num

/-- C7 amended: a bracket whose label has no numeric token (1) fails all
three range parsers, (2) is entirely inert for the average estimator —
removing it, share included, leaves `estimate_average_from_distribution`
unchanged — and (3) does not abort the interpolating estimator: if it is
the crossing bracket, the estimator returns 0 (interpolation skipped)
rather than failing.  (Its share DOES still feed the percentile scans,
which is what the counterexample exhibits.) -/
theorem c7_amended :
    (∀ s : String, findNumbers (clean s) = [] →
        extract_minimum_of_range s = none ∧
        extract_maximum_of_range s = none ∧
        extract_midpoint_of_range s = none) ∧
    (∀ (d1 d2 : List IncomeBracket) (b : IncomeBracket),
        findNumbers (clean b.range) = [] →
        estimate_average_from_distribution (d1 ++ b :: d2) =
          estimate_average_from_distribution (d1 ++ d2)) ∧
    (∀ (d1 : List IncomeBracket) (b : IncomeBracket) (d2 : List IncomeBracket),
        NoCross 25 0 d1 → 25 ≤ sumShares d1 + b.percentage →
        findNumbers (clean b.range) = [] →
        calculate_bottom_25_threshold_from_distribution (d1 ++ b :: d2) = .ok 0) := by
  refine ⟨tokenless_parsers, ?_, ?_⟩
  · intro d1 d2 b htok
    rw [average_eq_spec, average_eq_spec]
    unfold averageSpec
    rw [countedPairs_skip d1 d2 b (tokenless_parsers b.range htok).2.2]
  · intro d1 b d2 hnc hcr htok
    have hsum : sumShares d1 < 25 := by
      have := noCross_sum hnc (show (0:ℚ) < 25 by norm_num)
      linarith
    have hpct : 0 < b.percentage := by linarith
    unfold calculate_bottom_25_threshold_from_distribution thresholdForPercentileInterp
    rw [bottom25Loop_cross 25 d1 0 b d2 hnc (by linarith),
      crossValue_noMin hpct.ne.symm (tokenless_parsers b.range htok).1]
    rfl

theorem c7_witness :
    (extract_minimum_of_range ("no data") = none ∧
     extract_maximum_of_range ("no data") = none ∧
     extract_midpoint_of_range ("no data") = none) ∧
    estimate_average_from_distribution
        [IncomeBracket.mk ("no data") 50, IncomeBracket.mk ("$10 to $20") 50] =
      estimate_average_from_distribution [IncomeBracket.mk ("$10 to $20") 50] ∧
    calculate_bottom_25_threshold_from_distribution
      [IncomeBracket.mk ("no data") 50, IncomeBracket.mk ("$10 to $20") 50] = .ok 0 := by
  have htok : findNumbers (clean ("no data")) = [] := by decide
  refine ⟨c7_amended.1 ("no data") htok, ?_, ?_⟩
  · have h := c7_amended.2.1 [] [IncomeBracket.mk ("$10 to $20") 50]
      (IncomeBracket.mk ("no data") 50) htok
    simpa using h
  · have h := c7_amended.2.2 [] (IncomeBracket.mk ("no data") 50)
      [IncomeBracket.mk ("$10 to $20") 50] trivial (by norm_num [sumShares_nil]) htok
    simpa using h

/-! ### Claim C10 -/

/-- C10 counterexample: the interpolated threshold (target generalised
from the hard-coded 25) is NOT monotone in the target for arbitrary
distributions.  (a) With an unparseable second bracket, target 25 gives
183 but target 50 gives 0.  (b) With parseable but unsorted brackets,
target 25 gives 141666 but target 50 gives 7. -/
theorem c10_counterexample :
    (thresholdForPercentileInterp 25
        [IncomeBracket.mk ("$100 to $200") 30, IncomeBracket.mk ("junk") 30] = .ok 183 ∧
     thresholdForPercentileInterp 50
        [IncomeBracket.mk ("$100 to $200") 30, IncomeBracket.mk ("junk") 30] = .ok 0 ∧
     ¬ ((183 : ℚ) ≤ 0)) ∧
    (thresholdForPercentileInterp 25
        [IncomeBracket.mk ("$100,000 to $149,999") 30, IncomeBracket.mk ("$0 to $10") 30] =
      .ok 141666 ∧
     thresholdForPercentileInterp 50
        [IncomeBracket.mk ("$100,000 to $149,999") 30, IncomeBracket.mk ("$0 to $10") 30] =
      .ok 7 ∧
     ¬ ((141666 : ℚ) ≤ 7)) := by
  have hu1 : hasUnder (clean ("$100 to $200")) = false := by decide
  have ho1 : hasOver (clean ("$100 to $200")) = false := by decide
  have ht1 : findNumbers (clean ("$100 to $200")) = [100, 200] := by decide
  have hmn1 : extract_minimum_of_range ("$100 to $200") = some 100 := by
    have := min_of_plain ("$100 to $200") 100 [200] hu1 ht1
    simpa using this
  have hmx1 : extract_maximum_of_range ("$100 to $200") = some 200 := by
    have := max_of_plain2 ("$100 to $200") 100 200 [] hu1 ho1 ht1
    simpa using this
  have htj : findNumbers (clean ("junk")) = [] := by decide
  have hu2 : hasUnder (clean ("$100,000 to $149,999")) = false := by decide
  have ho2 : hasOver (clean ("$100,000 to $149,999")) = false := by decide
  have ht2 : findNumbers (clean ("$100,000 to $149,999")) = [100000, 149999] := by decide
  have hmn2 : extract_minimum_of_range ("$100,000 to $149,999") = some 100000 := by
    have := min_of_plain ("$100,000 to $149,999") 100000 [149999] hu2 ht2
    simpa using this
  have hmx2 : extract_maximum_of_range ("$100,000 to $149,999") = some 149999 := by
    have := max_of_plain2 ("$100,000 to $149,999") 100000 149999 [] hu2 ho2 ht2
    simpa using this
  have hu3 : hasUnder (clean ("$0 to $10")) = false := by decide
  have ho3 : hasOver (clean ("$0 to $10")) = false := by decide
  have ht3 : findNumbers (clean ("$0 to $10")) = [0, 10] := by decide
  have hmn3 : extract_minimum_of_range ("$0 to $10") = some 0 := by
    have := min_of_plain ("$0 to $10") 0 [10] hu3 ht3
    simpa using this
  have hmx3 : extract_maximum_of_range ("$0 to $10") = some 10 := by
    have := max_of_plain2 ("$0 to $10") 0 10 [] hu3 ho3 ht3
    simpa using this
  refine ⟨⟨?_, ?_, by norm_num⟩, ⟨?_, ?_, by norm_num⟩⟩
  · unfold thresholdForPercentileInterp
    have h := bottom25Loop_cross 25 [] 0 (IncomeBracket.mk ("$100 to $200") 30)
      [IncomeBracket.mk ("junk") 30] trivial (by norm_num [sumShares_nil])
    rw [List.nil_append] at h
    rw [h, crossValue_parsed (by norm_num) hmn1 hmx1]
    show Except.ok
      ((pyRound ((100:ℚ) + (200 - 100) * ((25 - (0 + sumShares [])) / 30)) : ℤ) : ℚ) = _
    rw [show (100:ℚ) + (200 - 100) * ((25 - (0 + sumShares [])) / 30) = 550/3 by
      rw [sumShares_nil]; norm_num]
    rw [pyRound_eq_low (550/3) 183 (by norm_num) (by norm_num)]
    norm_num
  · unfold thresholdForPercentileInterp
    have h := bottom25Loop_cross 50 [IncomeBracket.mk ("$100 to $200") 30] 0
      (IncomeBracket.mk ("junk") 30) [] (by exact ⟨by norm_num, trivial⟩)
      (by norm_num [sumShares])
    rw [List.cons_append, List.nil_append] at h
    rw [h, crossValue_noMin (by norm_num) (tokenless_parsers ("junk") htj).1]
    rfl
  · unfold thresholdForPercentileInterp
    have h := bottom25Loop_cross 25 [] 0 (IncomeBracket.mk ("$100,000 to $149,999") 30)
      [IncomeBracket.mk ("$0 to $10") 30] trivial (by norm_num [sumShares_nil])
    rw [List.nil_append] at h
    rw [h, crossValue_parsed (by norm_num) hmn2 hmx2]
    show Except.ok
      ((pyRound ((100000:ℚ) + (149999 - 100000) * ((25 - (0 + sumShares [])) / 30)) : ℤ) : ℚ) = _
    rw [show (100000:ℚ) + (149999 - 100000) * ((25 - (0 + sumShares [])) / 30) = 849995/6 by
      rw [sumShares_nil]; norm_num]
    rw [pyRound_eq_high (849995/6) 141665 (by norm_num) (by norm_num)]
    norm_num
  · unfold thresholdForPercentileInterp
    have h := bottom25Loop_cross 50 [IncomeBracket.mk ("$100,000 to $149,999") 30] 0
      (IncomeBracket.mk ("$0 to $10") 30) [] (by exact ⟨by norm_num, trivial⟩)
      (by norm_num [sumShares])
    rw [List.cons_append, List.nil_append] at h
    rw [h, crossValue_parsed (by norm_num) hmn3 hmx3]
    show Except.ok
      ((pyRound ((0:ℚ) + (10 - 0) *
        ((50 - (0 + sumShares [IncomeBracket.mk ("$100,000 to $149,999") 30])) / 30)) : ℤ) : ℚ) = _
    rw [show (0:ℚ) + (10 - 0) *
        ((50 - (0 + sumShares [IncomeBracket.mk ("$100,000 to $149,999") 30])) / 30) = 20/3 by
      norm_num [sumShares]]
    rw [pyRound_eq_high (20/3) 6 (by norm_num) (by norm_num)]
    norm_num

/-- C10 amended: the hard-coded-25 estimator is the target-generalised
interpolated threshold at 25; and for a fixed distribution whose
brackets all parse with ordered bounds and are sorted ascending (each
bracket's maxBound at most every later bracket's minBound), the
interpolated threshold is monotone non-decreasing in the target
percentile. -/
theorem c10_amended :
    (∀ d : List IncomeBracket,
        calculate_bottom_25_threshold_from_distribution d =
          thresholdForPercentileInterp 25 d) ∧
    (∀ (d : List IncomeBracket) (p1 p2 v1 v2 : ℚ), 0 < p1 → p1 ≤ p2 →
        (∀ b ∈ d, GoodBracket b) → AscendingBrackets d →
        thresholdForPercentileInterp p1 d = .ok v1 →
        thresholdForPercentileInterp p2 d = .ok v2 → v1 ≤ v2) := by
  refine ⟨fun d => rfl, ?_⟩
  intro d p1 p2 v1 v2 hp1 h12 hgood hasc h1 h2
  unfold thresholdForPercentileInterp at h1 h2
  rcases hl1 : bottom25Loop p1 0 d with e1 | r1 <;> rw [hl1] at h1
  · cases h1
  rcases r1 with _ | w1
  · have hl2 : bottom25Loop p2 0 d = .ok none := bottom25Loop_none_mono h12 d 0 hl1
    rw [hl2] at h2
    rcases hlast : d.getLast? with _ | bl <;> rw [hlast] at h1 h2 <;>
      simp only [Except.ok.injEq] at h1 h2 <;> rw [← h1, ← h2]
  · rcases hl2 : bottom25Loop p2 0 d with e2 | r2 <;> rw [hl2] at h2
    · cases h2
    rcases r2 with _ | w2
    · -- p2 exhausted while p1 crossed
      rcases hlast : d.getLast? with _ | bl
      · exfalso
        cases d with
        | nil => simp [bottom25Loop] at hl1
        | cons a l => simp [List.getLast?_eq_none_iff] at hlast
      · rw [hlast] at h2
        simp only [Except.ok.injEq] at h1 h2
        have hb := bottom25Loop_some_none h12 d 0 w1 bl hgood hasc hp1 hl1 hl2 hlast
        rw [← h1, ← h2]
        exact hb
    · simp only [Except.ok.injEq] at h1 h2
      rw [← h1, ← h2]
      exact bottom25Loop_mono h12 d 0 w1 w2 hgood hasc hp1 hl1 hl2

theorem c10_witness :
    thresholdForPercentileInterp 25
      [IncomeBracket.mk ("$0 to $10") 40, IncomeBracket.mk ("$20 to $30") 40] = .ok 6 ∧
    thresholdForPercentileInterp 52
      [IncomeBracket.mk ("$0 to $10") 40, IncomeBracket.mk ("$20 to $30") 40] = .ok 23 ∧
    (6 : ℚ) ≤ 23 := by
  have hu1 : hasUnder (clean ("$0 to $10")) = false := by decide
  have ho1 : hasOver (clean ("$0 to $10")) = false := by decide
  have ht1 : findNumbers (clean ("$0 to $10")) = [0, 10] := by decide
  have hmn1 : extract_minimum_of_range ("$0 to $10") = some 0 := by
    have := min_of_plain ("$0 to $10") 0 [10] hu1 ht1
    simpa using this
  have hmx1 : extract_maximum_of_range ("$0 to $10") = some 10 := by
    have := max_of_plain2 ("$0 to $10") 0 10 [] hu1 ho1 ht1
    simpa using this
  have hu2 : hasUnder (clean ("$20 to $30")) = false := by decide
  have ho2 : hasOver (clean ("$20 to $30")) = false := by decide
  have ht2 : findNumbers (clean ("$20 to $30")) = [20, 30] := by decide
  have hmn2 : extract_minimum_of_range ("$20 to $30") = some 20 := by
    have := min_of_plain ("$20 to $30") 20 [30] hu2 ht2
    simpa using this
  have hmx2 : extract_maximum_of_range ("$20 to $30") = some 30 := by
    have := max_of_plain2 ("$20 to $30") 20 30 [] hu2 ho2 ht2
    simpa using this
  have e1 : thresholdForPercentileInterp 25
      [IncomeBracket.mk ("$0 to $10") 40, IncomeBracket.mk ("$20 to $30") 40] = .ok 6 := by
    unfold thresholdForPercentileInterp
    have h := bottom25Loop_cross 25 [] 0 (IncomeBracket.mk ("$0 to $10") 40)
      [IncomeBracket.mk ("$20 to $30") 40] trivial (by norm_num [sumShares_nil])
    rw [List.nil_append] at h
    rw [h, crossValue_parsed (by norm_num) hmn1 hmx1]
    show Except.ok
      ((pyRound ((0:ℚ) + (10 - 0) * ((25 - (0 + sumShares [])) / 40)) : ℤ) : ℚ) = _
    rw [show (0:ℚ) + (10 - 0) * ((25 - (0 + sumShares [])) / 40) = 25/4 by
      rw [sumShares_nil]; norm_num]
    rw [pyRound_eq_low (25/4) 6 (by norm_num) (by norm_num)]
    norm_num
  have e2 : thresholdForPercentileInterp 52
      [IncomeBracket.mk ("$0 to $10") 40, IncomeBracket.mk ("$20 to $30") 40] = .ok 23 := by
    unfold thresholdForPercentileInterp
    have h := bottom25Loop_cross 52 [IncomeBracket.mk ("$0 to $10") 40] 0
      (IncomeBracket.mk ("$20 to $30") 40) [] (by exact ⟨by norm_num, trivial⟩)
      (by norm_num [sumShares])
    rw [List.cons_append, List.nil_append] at h
    rw [h, crossValue_parsed (by norm_num) hmn2 hmx2]
    show Except.ok
      ((pyRound ((20:ℚ) + (30 - 20) *
        ((52 - (0 + sumShares [IncomeBracket.mk ("$0 to $10") 40])) / 40)) : ℤ) : ℚ) = _
    rw [show (20:ℚ) + (30 - 20) *
        ((52 - (0 + sumShares [IncomeBracket.mk ("$0 to $10") 40])) / 40) = 23 by
      norm_num [sumShares]]
    rw [pyRound_eq_low 23 23 (by norm_num) (by norm_num)]
    norm_num
  have hgood : ∀ b ∈ [IncomeBracket.mk ("$0 to $10") 40, IncomeBracket.mk ("$20 to $30") 40],
      GoodBracket b := by
    intro b hb
    simp only [List.mem_cons, List.mem_singleton, List.not_mem_nil, or_false] at hb
    rcases hb with rfl | rfl
    · refine ⟨by rw [hmn1]; rfl, by rw [hmx1]; rfl, ?_⟩
      rw [show mnv (IncomeBracket.mk ("$0 to $10") 40) = 0 by simp [mnv, hmn1],
        show mxv (IncomeBracket.mk ("$0 to $10") 40) = 10 by simp [mxv, hmx1]]
      norm_num
    · refine ⟨by rw [hmn2]; rfl, by rw [hmx2]; rfl, ?_⟩
      rw [show mnv (IncomeBracket.mk ("$20 to $30") 40) = 20 by simp [mnv, hmn2],
        show mxv (IncomeBracket.mk ("$20 to $30") 40) = 30 by simp [mxv, hmx2]]
      norm_num
  have hasc : AscendingBrackets
      [IncomeBracket.mk ("$0 to $10") 40, IncomeBracket.mk ("$20 to $30") 40] := by
    unfold AscendingBrackets
    refine List.pairwise_cons.mpr ⟨?_, List.pairwise_singleton _ _⟩
    intro b hb
    simp only [List.mem_singleton] at hb
    subst hb
    rw [show mxv (IncomeBracket.mk ("$0 to $10") 40) = 10 by simp [mxv, hmx1],
      show mnv (IncomeBracket.mk ("$20 to $30") 40) = 20 by simp [mnv, hmn2]]
    norm_num
  exact ⟨e1, e2, c10_amended.2
    [IncomeBracket.mk ("$0 to $10") 40, IncomeBracket.mk ("$20 to $30") 40]
    25 52 6 23 (by norm_num) (by norm_num) hgood hasc e1 e2⟩
